import Mathlib

/-!
Verification of the pitwall telemetry engine (racing-coach repository).

This file gives a shallow embedding, in Lean 4, of the parts of the engine
the specification talks about:

* the schema-driven FrameAdapter protocol generated by the
  `PitwallFrame` derive macro (`libs/pitwall-derive/src/lib.rs`):
  validation phase (`generate_validation_phase`) and per-field extraction
  phase (`generate_type_default_assignment`, `generate_with_default_assignment`,
  `generate_optional_assignment`, `generate_critical_assignment`);
* the Driver frame reader loop (`libs/pitwall/src/driver.rs`,
  `Driver::frame_reader_task`): consecutive-error accounting, exponential
  backoff, session-version change detection, SyncState updates, publication;
* the ReplayConnection facade (`libs/pitwall/src/connection/replay.rs`):
  `open` (first-frame wait with timeout) and `subscribe` (validate, then map
  `adapt` over the broadcast frame stream);
* the AcceleratedReplayProvider
  (`apps/client-rs/src/pitwall_ext/accelerated_provider.rs`): speed clamping
  and pacing-interval computation;
* the broadcast-sender bookkeeping relevant to stream closure: who holds a
  clone of the frame `broadcast::Sender` (the Connection struct and the
  reader task), together with the tokio broadcast rule that a receiver
  observes `RecvError::Closed` only once every sender has been dropped.

Rust machine floats (`f64`) for speed and tick rate are embedded as rationals;
the claims settled here depend only on the algebraic shape of the clamp and
the interval formula, not on rounding. Raw frame bytes and the byte-level
`VarData::from_bytes` decoders are abstracted: `adapt` is embedded per field,
parametrised by the decode function, which either yields a value or a
type-mismatch error, exactly the distinction the generated code branches on.
-/

namespace Pitwall

/-! ## Data model: schema and packets -/

/-- Element type of a telemetry variable (irsdk binary format). Only its
identity matters here: the generated adapt code branches on whether
`from_bytes` succeeds, not on the tag itself. -/
inductive VarDataType where
  | charType
  | boolType
  | intType
  | bitFieldType
  | floatType
  | doubleType
deriving DecidableEq, Repr

/-- RawVariableInfo: name, byte offset, element type, element count
(spec section 3; `types.rs` lives outside `src/`, the shape is taken from the
data-model section of the spec and from how the derive macro uses it). -/
structure RawVariableInfo where
  name : String
  offset : Nat
  dataType : VarDataType
  count : Nat
deriving DecidableEq, Repr

/-- VariableSchema: name -> RawVariableInfo directory, embedded as an
association list (the Rust side is a HashMap; key iteration order is
arbitrary there and positional here). The Rust field is named `variables`,
which Lean reserves. -/
structure VariableSchema where
  vars : List (String × RawVariableInfo)
deriving DecidableEq, Repr

/-- `schema.get_variable(name)` - first binding for the name, if any. -/
def VariableSchema.getVariable (schema : VariableSchema) (name : String) :
    Option RawVariableInfo :=
  schema.vars.lookup name

/-- `schema.variables.keys().cloned().collect()` - the list of variable names
actually present, used verbatim in the validation diagnostic. -/
def VariableSchema.availableFields (schema : VariableSchema) : List String :=
  schema.vars.map Prod.fst

/-- FramePacket: tick, session_version and raw bytes (the schema reference of
the Rust struct is dropped: it is the connection-wide schema, immutable, and
never consulted by the embedded operations). -/
structure FramePacket where
  tick : Nat
  sessionVersion : Nat
  data : List Nat
deriving DecidableEq, Repr

/-! ## FrameAdapter protocol: validation phase -/

/-- TelemetryError, restricted to the constructor the derive macro emits
(`TelemetryError::Parse { context, details }`). -/
inductive TelemetryError where
  | parse (context : String) (details : String)
deriving DecidableEq, Repr

/-- The connection-aborting error built by `generate_validation_phase` for a
missing critical field: context "Frame adapter validation" and a details
string that ends with the comma-joined list of every variable present in the
schema. (The Rust format string quotes the field name; the quoting characters
are omitted here.) -/
def criticalFieldError (fieldName : String) (availableFields : List String) :
    TelemetryError :=
  .parse "Frame adapter validation"
    ("Critical field " ++ fieldName ++
      " is missing from schema. Connection aborted. Available fields: " ++
      String.intercalate ", " availableFields)

/-- DefaultValue carried by a WithDefault plan item
(`pitwall::adapters::DefaultValue` as constructed by the macro). -/
inductive DefaultValue where
  | typeDefault
  | explicitExpression (expr : String)
deriving DecidableEq, Repr

/-- FieldExtraction: one resolved entry of the extraction plan
(`pitwall::adapters::FieldExtraction` as constructed by the macro). -/
inductive FieldExtraction where
  | required (name : String) (varInfo : RawVariableInfo)
  | optionalField (name : String) (varInfo : Option RawVariableInfo)
  | withDefault (name : String) (varInfo : Option RawVariableInfo)
      (defaultValue : DefaultValue)
  | calculatedField (expression : String)
  | skippedField
deriving DecidableEq, Repr

/-- FieldStrategy: the per-field classification `parse_field_strategy`
derives from a consumer struct's attributes. A consumer type, for the
purposes of validation, is its ordered list of strategies. -/
inductive FieldStrategy where
  | critical (fieldName : String)
  | optionalStrategy (fieldName : String)
  | withDefaultStrategy (fieldName : String) (defaultExpr : String)
  | typeDefault (fieldName : String)
  | bitfieldHas (fieldName : String) (targetIsOption : Bool)
      (defaultExpr : Option String) (failIfMissing : Bool)
  | bitfieldMap (fieldName : String) (targetIsOption : Bool)
      (defaultExpr : Option String) (failIfMissing : Bool)
  | calculatedStrategy (expressionStr : String)
  | skipStrategy
deriving DecidableEq, Repr

/-- Shared validation path of the two bitfield strategies
(`generate_validation_phase`, BitfieldHas/BitfieldMap arm): with
fail_if_missing the field takes the Required path; otherwise an Option target
resolves to Optional, an explicit default to WithDefault/ExplicitExpression,
and anything else to WithDefault/TypeDefault. -/
def resolveBitfieldItem (schema : VariableSchema) (name : String)
    (targetIsOption : Bool) (defaultExpr : Option String)
    (failIfMissing : Bool) : Except TelemetryError FieldExtraction :=
  if failIfMissing then
    match schema.getVariable name with
    | some info => .ok (.required name info)
    | none => .error (criticalFieldError name schema.availableFields)
  else if targetIsOption then
    .ok (.optionalField name (schema.getVariable name))
  else
    match defaultExpr with
    | some e => .ok (.withDefault name (schema.getVariable name)
        (.explicitExpression e))
    | none => .ok (.withDefault name (schema.getVariable name) .typeDefault)

/-- Resolution of one field strategy into its plan item
(`generate_validation_phase`, one loop iteration). Only the Critical arm and
the fail_if_missing bitfield arm can fail, and they fail with
`criticalFieldError` over the schema's key list. -/
def resolvePlanItem (schema : VariableSchema) :
    FieldStrategy → Except TelemetryError FieldExtraction
  | .typeDefault name =>
      .ok (.withDefault name (schema.getVariable name) .typeDefault)
  | .withDefaultStrategy name defaultExpr =>
      .ok (.withDefault name (schema.getVariable name)
        (.explicitExpression defaultExpr))
  | .optionalStrategy name =>
      .ok (.optionalField name (schema.getVariable name))
  | .critical name =>
      match schema.getVariable name with
      | some info => .ok (.required name info)
      | none => .error (criticalFieldError name schema.availableFields)
  | .bitfieldHas name targetIsOption defaultExpr failIfMissing =>
      resolveBitfieldItem schema name targetIsOption defaultExpr failIfMissing
  | .bitfieldMap name targetIsOption defaultExpr failIfMissing =>
      resolveBitfieldItem schema name targetIsOption defaultExpr failIfMissing
  | .calculatedStrategy expr => .ok (.calculatedField expr)
  | .skipStrategy => .ok .skippedField

/-- `validate_schema` as generated: the per-field checks run in field order
and the first failing critical check returns the error; when every check
passes the ordered extraction plan is returned. -/
def validateSchema (strategies : List FieldStrategy)
    (schema : VariableSchema) :
    Except TelemetryError (List FieldExtraction) :=
  match strategies with
  | [] => .ok []
  | s :: rest =>
    match resolvePlanItem schema s with
    | .error e => .error e
    | .ok item =>
      match validateSchema rest schema with
      | .error e => .error e
      | .ok items => .ok (item :: items)

/-- A strategy that takes the Required validation path: a `#[fail_if_missing]`
field, or a bitfield field carrying `#[fail_if_missing]`. -/
def FieldStrategy.isRequiredStrategy : FieldStrategy → Bool
  | .critical _ => true
  | .bitfieldHas _ _ _ failIfMissing => failIfMissing
  | .bitfieldMap _ _ _ failIfMissing => failIfMissing
  | _ => false

/-- The telemetry variable name a strategy is sourced from, when any. -/
def FieldStrategy.sourceName : FieldStrategy → Option String
  | .critical name => some name
  | .optionalStrategy name => some name
  | .withDefaultStrategy name _ => some name
  | .typeDefault name => some name
  | .bitfieldHas name _ _ _ => some name
  | .bitfieldMap name _ _ _ => some name
  | .calculatedStrategy _ => none
  | .skipStrategy => none

/-! ## Connection subscribe (replay.rs) -/

/-- `ReplayConnection::subscribe`, run against a list of incoming frame
packets: the schema is validated exactly once, up front; only when validation
succeeds is the typed stream built by mapping `adapt` over the packets. The
`.expect` panic of the Rust source on a validation error is embedded as the
error branch: no adapt call is reachable from it. Rate control composes after
validation and only drops packets, so it is irrelevant to the error path and
kept out of this definition. -/
def subscribeRun {V : Type} (strategies : List FieldStrategy)
    (schema : VariableSchema)
    (adaptFn : List FieldExtraction → FramePacket → V)
    (packets : List FramePacket) : Except TelemetryError (List V) :=
  match validateSchema strategies schema with
  | .error e => .error e
  | .ok plan => .ok (packets.map (adaptFn plan))

/-! ## FrameAdapter protocol: extraction phase

Each generated field assignment matches the plan entry at the field's index
and decodes via `<T as VarData>::from_bytes(&data, var_info)`. The decoder is
abstracted as an argument `fromBytes` returning either the decoded value or a
type-mismatch error. The degrading assignments log through a per-field
`std::sync::Once`; that is embedded by threading the warned flag: each adapt
function takes the flag and returns `(value, newWarnedFlag, loggedNow)`, with
`loggedNow = true` exactly when the mismatch fires the `call_once` closure. -/

/-- Outcome of a field assignment that may panic
(`generate_critical_assignment` uses `panic!` on every unexpected path). -/
inductive AdaptFieldResult (V : Type) where
  | ok (value : V)
  | panicked (msg : String)
deriving DecidableEq, Repr

/-- `generate_type_default_assignment`: a WithDefault plan entry decodes when
its variable is present, degrading to `<T as Default>::default()` (with a
once-per-field warning) on a decode error, and to the default silently when
the variable is absent or the plan entry is unexpected. -/
def adaptTypeDefaultField {V : Type} (plan : List FieldExtraction)
    (index : Nat) (data : List Nat)
    (fromBytes : List Nat → RawVariableInfo → Except String V)
    (typeDefaultValue : V) (warned : Bool) : V × Bool × Bool :=
  match plan.get? index with
  | some (.withDefault _ varInfoOpt _) =>
    match varInfoOpt with
    | some varInfo =>
      match fromBytes data varInfo with
      | .ok value => (value, warned, false)
      | .error _ => (typeDefaultValue, true, !warned)
    | none => (typeDefaultValue, warned, false)
  | _ => (typeDefaultValue, warned, false)

/-- `generate_with_default_assignment`: as `adaptTypeDefaultField` but the
fallback is the field's `#[missing = ...]` expression value. -/
def adaptWithDefaultField {V : Type} (plan : List FieldExtraction)
    (index : Nat) (data : List Nat)
    (fromBytes : List Nat → RawVariableInfo → Except String V)
    (fallbackValue : V) (warned : Bool) : V × Bool × Bool :=
  match plan.get? index with
  | some (.withDefault _ varInfoOpt _) =>
    match varInfoOpt with
    | some varInfo =>
      match fromBytes data varInfo with
      | .ok value => (value, warned, false)
      | .error _ => (fallbackValue, true, !warned)
    | none => (fallbackValue, warned, false)
  | _ => (fallbackValue, warned, false)

/-- `generate_optional_assignment`: an Optional plan entry yields `some` of
the decoded value when the variable is present and decodes, `none` (with a
once-per-field warning) on a decode error, and `none` silently when the
variable is absent or the plan entry is unexpected. -/
def adaptOptionalField {W : Type} (plan : List FieldExtraction)
    (index : Nat) (data : List Nat)
    (fromBytes : List Nat → RawVariableInfo → Except String W)
    (warned : Bool) : Option W × Bool × Bool :=
  match plan.get? index with
  | some (.optionalField _ varInfoOpt) =>
    match varInfoOpt with
    | some varInfo =>
      match fromBytes data varInfo with
      | .ok value => (some value, warned, false)
      | .error _ => (none, true, !warned)
    | none => (none, warned, false)
  | _ => (none, warned, false)

/-- `generate_critical_assignment`: a Required plan entry decodes or panics;
a plan entry of any other shape, or a missing entry, also panics. -/
def adaptCriticalField {V : Type} (plan : List FieldExtraction)
    (index : Nat) (data : List Nat)
    (fromBytes : List Nat → RawVariableInfo → Except String V)
    (fieldName : String) : AdaptFieldResult V :=
  match plan.get? index with
  | some (.required name varInfo) =>
    match fromBytes data varInfo with
    | .ok value => .ok value
    | .error err =>
        .panicked ("Failed to decode critical field " ++ name ++
          " during adapt: " ++ err)
  | some _ =>
      .panicked ("Validation plan entry for " ++ fieldName ++
        " is not Required")
  | none =>
      .panicked ("Validation plan missing required field " ++ fieldName)

/-! ## Driver frame reader loop (driver.rs)

`Driver::frame_reader_task` is embedded as a step function over an explicit
state and a trace of events, driven by the sequence of `next_frame()`
results. Cancellation is not exercised by the claims settled here, so the
embedded run is the not-cancelled execution. The detached YAML-parsing task
is recorded as a `parseTaskSpawned` event at its spawn point; its later
effects (session parse, SyncState.current_session, session publication) are
asynchronous and outside this loop. -/

/-- Result of one `provider.next_frame()` call:
`Ok(Some(packet))`, `Ok(None)` or `Err(e)`. -/
inductive ProviderResult where
  | frame (packet : FramePacket)
  | endOfStream
  | readError (msg : String)
deriving DecidableEq, Repr

/-- Result of one `provider.session_yaml(version)` call:
`Ok(Some(yaml))`, `Ok(None)` or `Err(e)`. -/
inductive SessionYamlResult where
  | text (yaml : String)
  | absent
  | fetchError (msg : String)
deriving DecidableEq, Repr

/-- Observable events of one reader-loop iteration. -/
inductive ReaderEvent where
  | sessionYamlRequested (version : Nat)
  | parseTaskSpawned (version : Nat) (yaml : String)
  | framePublished (packet : FramePacket)
  | backoffSlept (ms : Nat)
  | stoppedGraceful
  | stoppedFatal
deriving DecidableEq, Repr

/-- Mutable state of `frame_reader_task`, including the
`SyncState.current_frame` slot it is the sole writer of. -/
structure ReaderState where
  frameCount : Nat
  errorCount : Nat
  lastSessionVersion : Option Nat
  currentFrame : Option FramePacket
deriving DecidableEq, Repr

/-- State at task start: counters zero, no version seen, `SyncState::new()`
holds no frame. -/
def initialReaderState : ReaderState :=
  { frameCount := 0, errorCount := 0, lastSessionVersion := none,
    currentFrame := none }

/-- `const MAX_ERRORS: u32 = 10`. -/
def maxErrors : Nat := 10

/-- The backoff sleep `Duration::from_millis(50 * (1 << error_count.min(5)))`
computed after the error counter has been incremented. -/
def backoffMillis (errorCount : Nat) : Nat := 50 * 2 ^ min errorCount 5

/-- One iteration of the reader loop on one `next_frame()` result. Returns
the next state, the events of the iteration, and whether the loop continues.
On a packet: bump the frame count, clear the error counter, overwrite
`SyncState.current_frame`; when the session version differs from the last one
seen, request `session_yaml` (spawning a parse task only when text comes
back) and record the version as seen in every outcome; then publish the
packet. On end-of-stream: stop gracefully. On a read error: bump the error
counter, stop fatally at `maxErrors`, otherwise sleep the backoff. -/
def readerStep (yamlOutcome : Nat → SessionYamlResult) (s : ReaderState) :
    ProviderResult → ReaderState × List ReaderEvent × Bool
  | .frame packet =>
    let s1 : ReaderState :=
      { s with frameCount := s.frameCount + 1, errorCount := 0,
               currentFrame := some packet }
    if s.lastSessionVersion = some packet.sessionVersion then
      (s1, [ReaderEvent.framePublished packet], true)
    else
      let enrichment : List ReaderEvent :=
        match yamlOutcome packet.sessionVersion with
        | .text yaml => [ReaderEvent.parseTaskSpawned packet.sessionVersion yaml]
        | .absent => []
        | .fetchError _ => []
      ({ s1 with lastSessionVersion := some packet.sessionVersion },
        ReaderEvent.sessionYamlRequested packet.sessionVersion ::
          (enrichment ++ [ReaderEvent.framePublished packet]),
        true)
  | .endOfStream => (s, [ReaderEvent.stoppedGraceful], false)
  | .readError _ =>
    let s1 : ReaderState := { s with errorCount := s.errorCount + 1 }
    if maxErrors ≤ s1.errorCount then
      (s1, [ReaderEvent.stoppedFatal], false)
    else
      (s1, [ReaderEvent.backoffSlept (backoffMillis s1.errorCount)], true)

/-- The reader loop run over a list of provider results: iterate `readerStep`
until it stops or the input is exhausted, accumulating the event trace. -/
def readerRun (yamlOutcome : Nat → SessionYamlResult) (s : ReaderState) :
    List ProviderResult → ReaderState × List ReaderEvent
  | [] => (s, [])
  | r :: rest =>
    let step := readerStep yamlOutcome s r
    if step.2.2 then
      let rec2 := readerRun yamlOutcome step.1 rest
      (rec2.1, step.2.1 ++ rec2.2)
    else
      (step.1, step.2.1)

/-- The packets carried by the `framePublished` events of a trace, in order. -/
def publishedPackets (events : List ReaderEvent) : List FramePacket :=
  events.filterMap fun e =>
    match e with
    | .framePublished p => some p
    | _ => none

/-- The versions carried by the `sessionYamlRequested` events of a trace. -/
def requestedVersions (events : List ReaderEvent) : List Nat :=
  events.filterMap fun e =>
    match e with
    | .sessionYamlRequested v => some v
    | _ => none

/-- The last element of a list of packets, or a fallback when there is
none - the value `SyncState.current_frame` holds after the packets have been
written to it in order, starting from the fallback. -/
def latestOr (packets : List FramePacket) (fallback : Option FramePacket) :
    Option FramePacket :=
  match packets.getLast? with
  | some p => some p
  | none => fallback

/-- Whether a provider result is a read error. -/
def ProviderResult.isReadError : ProviderResult → Bool
  | .readError _ => true
  | _ => false

/-- The packet of a provider result, when it carries one. -/
def ProviderResult.packetOf : ProviderResult → Option FramePacket
  | .frame p => some p
  | _ => none

/-- Spec-side predicate, following the wording of the error-handling section:
the input contains `maxErrors` consecutive read errors. -/
def tenConsecutiveErrors (input : List ProviderResult) : Prop :=
  ∃ pre win post, input = pre ++ win ++ post ∧ win.length = maxErrors ∧
    ∀ r ∈ win, ProviderResult.isReadError r = true

/-- The largest consecutive-error count the loop's counter reaches on the
given input when it enters with count `c`: a read error extends the current
run, a frame resets it, end-of-stream stops the loop. Bridge between the
loop's counter and the spec's consecutive-error wording. -/
def errorRunPeak (c : Nat) : List ProviderResult → Nat
  | [] => c
  | .readError _ :: rest => max (c + 1) (errorRunPeak (c + 1) rest)
  | .frame _ :: rest => max c (errorRunPeak 0 rest)
  | .endOfStream :: _ => c

/-- Spec-side description of when the loop requests `session_yaml`, following
the wording of claim C10: walk the published session versions and keep
exactly those that differ from the previous packet's version, the first
packet having no previous version. -/
def versionChangePoints (last : Option Nat) : List Nat → List Nat
  | [] => []
  | v :: rest =>
    if last = some v then versionChangePoints last rest
    else v :: versionChangePoints (some v) rest

/-! ## Broadcast sender bookkeeping and stream closure

`Driver::spawn` creates the frame broadcast channel, moves one `Sender` clone
into the reader task (`frame_tx_clone`) and returns the original in
`DriverChannels.frame_tx`, which `ReplayConnection::open` stores in the
connection struct. Per tokio's broadcast contract - the same contract the
comment in `frame_reader_task` appeals to - a `Receiver` (and hence a
`BroadcastStream` subscriber) observes `RecvError::Closed` exactly when every
`Sender` has been dropped. -/

/-- Which clones of the frame `broadcast::Sender` are still alive. -/
structure BroadcastSenderHolders where
  connectionHolds : Bool
  readerTaskHolds : Bool
deriving DecidableEq, Repr

/-- Number of live senders of the frame channel. -/
def frameSenderCount (h : BroadcastSenderHolders) : Nat :=
  (if h.connectionHolds then 1 else 0) + (if h.readerTaskHolds then 1 else 0)

/-- After `ReplayConnection::open` returns: the connection struct holds
`channels.frame_tx` and the spawned reader task holds `frame_tx_clone`. -/
def holdersAfterOpen : BroadcastSenderHolders :=
  { connectionHolds := true, readerTaskHolds := true }

/-- The reader task exiting (graceful, fatal or cancelled) drops the clone it
captured. -/
def holdersAfterReaderExit (h : BroadcastSenderHolders) :
    BroadcastSenderHolders :=
  { h with readerTaskHolds := false }

/-- Dropping the `ReplayConnection` drops the sender stored in its
`frame_tx` field. -/
def holdersAfterConnectionDrop (h : BroadcastSenderHolders) :
    BroadcastSenderHolders :=
  { h with connectionHolds := false }

/-- tokio broadcast closure rule: a subscriber observes
`RecvError::Closed` exactly when no sender is left. -/
def receiverObservesClosed (h : BroadcastSenderHolders) : Bool :=
  frameSenderCount h == 0

/-! ## ReplayConnection::open (replay.rs) -/

/-- Metadata extracted from the provider before the driver is spawned:
`provider.schema()` and `provider.tick_rate()`. -/
structure ProviderMeta where
  schema : VariableSchema
  sourceHz : ℚ
deriving DecidableEq, Repr

/-- Outcome of the bounded first-frame wait
`tokio::time::timeout(5s, rx.recv()).await`: a frame arrived, the channel
closed (`recv` errored, folded to `None` by `.ok()`), or the timeout
elapsed. -/
inductive FirstFrameWaitOutcome where
  | frameReceived (packet : FramePacket)
  | channelClosed
  | timedOut
deriving DecidableEq, Repr

/-- `let timeout = std::time::Duration::from_secs(5)` in
`ReplayConnection::open`. -/
def openTimeoutSeconds : Nat := 5

/-- The fields of the `ReplayConnection` value that `open` returns which the
claims observe, plus the state of the warning branch. `syncCurrentFrame` is
the `SyncState.current_frame` slot at the moment `open` returns: created
empty by `SyncState::new()` and written by the reader loop for each packet
before the packet is broadcast, so it holds the received packet when the wait
saw one and nothing otherwise. -/
structure ReplayConnectionModel where
  schema : VariableSchema
  sourceHz : ℚ
  syncCurrentFrame : Option FramePacket
  warnedTimeout : Bool
deriving DecidableEq, Repr

/-- `ReplayConnection::open`: a provider-construction error propagates (the
`?` on `ReplayProvider::new`); otherwise the first-frame wait runs and `open`
returns `Ok` in every outcome, only warning when no frame arrived. -/
def openReplay (providerResult : Except TelemetryError ProviderMeta)
    (wait : FirstFrameWaitOutcome) :
    Except TelemetryError ReplayConnectionModel :=
  match providerResult with
  | .error e => .error e
  | .ok meta =>
    .ok { schema := meta.schema
          sourceHz := meta.sourceHz
          syncCurrentFrame :=
            match wait with
            | .frameReceived p => some p
            | .channelClosed => none
            | .timedOut => none
          warnedTimeout :=
            match wait with
            | .frameReceived _ => false
            | .channelClosed => true
            | .timedOut => true }

/-- `ReplayConnection::current_frame()`: read the SyncState slot. -/
def ReplayConnectionModel.currentFrame (c : ReplayConnectionModel) :
    Option FramePacket :=
  c.syncCurrentFrame

/-! ## LiveConnection::connect (live.rs) -/

/-- How a connection constructor relates to the first frame before
returning: a bounded suspend-until-frame-or-timeout, or no wait at all. -/
inductive FirstFrameWait where
  | boundedWait (timeoutSeconds : Nat)
  | noWait
deriving DecidableEq, Repr

/-- ReplayConnection::open performs the bounded first-frame wait
`tokio::time::timeout(Duration::from_secs(5), rx.recv())`
(replay.rs, lines 57-64). -/
def replayOpenFirstFrameWait : FirstFrameWait :=
  .boundedWait openTimeoutSeconds

/-- LiveConnection::connect performs no first-frame wait of any kind: after
spawning the driver it returns at once (live.rs, lines 62-64: "Don't wait
for frames here - let the streams handle waiting"). -/
def liveConnectFirstFrameWait : FirstFrameWait := .noWait

/-- The fields of the `LiveConnection` value that `connect` returns which
the claims observe. The SyncState starts empty exactly as for replay
(`SyncState::new()` in `Driver::spawn`). -/
structure LiveConnectionModel where
  schema : VariableSchema
  sourceHz : ℚ
  syncCurrentFrame : Option FramePacket
deriving DecidableEq, Repr

/-- `LiveConnection::connect` (live.rs, lines 51-76): a provider-construction
error propagates (the `?` on `LiveProvider::new`); otherwise connect returns
`Ok` immediately - with the SyncState slots freshly empty and without
waiting for a first frame or starting any timeout. -/
def connectLive (providerResult : Except TelemetryError ProviderMeta) :
    Except TelemetryError LiveConnectionModel :=
  match providerResult with
  | .error e => .error e
  | .ok m =>
    .ok { schema := m.schema
          sourceHz := m.sourceHz
          syncCurrentFrame := none }

/-- `LiveConnection::current_frame()`: read the SyncState slot. -/
def LiveConnectionModel.currentFrame (c : LiveConnectionModel) :
    Option FramePacket :=
  c.syncCurrentFrame

/-! ## AcceleratedReplayProvider (accelerated_provider.rs)

The `IbtReader` is not under `src/`; it is abstracted as the list of frames
of the recording plus the cursor `current_frame()`, which is all
`AcceleratedReplayProvider` uses of it. `f64` arithmetic is embedded over the
rationals. -/

/-- `f64::clamp(lo, hi)`: `min(max(x, lo), hi)` (no NaN in the rational
embedding). -/
def clampQ (x lo hi : ℚ) : ℚ := min (max x lo) hi

/-- State of an `AcceleratedReplayProvider`. -/
structure AcceleratedReplayProvider where
  framesData : List FramePacket
  cursor : Nat
  totalFrames : Nat
  speed : ℚ
  intervalSeconds : ℚ
  tickRate : ℚ
deriving DecidableEq, Repr

/-- `AcceleratedReplayProvider::new`: clamp the requested speed to
`[0.1, 100.0]` and fix the pacing interval at
`Duration::from_secs_f64(1.0 / (tick_rate * speed))`. -/
def AcceleratedReplayProvider.new (frames : List FramePacket)
    (tickRate requestedSpeed : ℚ) : AcceleratedReplayProvider :=
  let speed := clampQ requestedSpeed (1 / 10) 100
  { framesData := frames
    cursor := 0
    totalFrames := frames.length
    speed := speed
    intervalSeconds := 1 / (tickRate * speed)
    tickRate := tickRate }

/-- `AcceleratedReplayProvider::next_frame`: end of stream once the cursor
reaches the total; otherwise wait one pacing interval, read the next frame
and advance the cursor. Neither branch touches `speed`, `interval` or
`tick_rate`. -/
def AcceleratedReplayProvider.nextFrame (p : AcceleratedReplayProvider) :
    AcceleratedReplayProvider × Option FramePacket :=
  if p.totalFrames ≤ p.cursor then (p, none)
  else
    match p.framesData.get? p.cursor with
    | none => (p, none)
    | some packet => ({ p with cursor := p.cursor + 1 }, some packet)

/-- The provider's two stateful operations: `next_frame()` and
`session_yaml(version)` (the latter reads the recording's static session
text and leaves the pacing state untouched). -/
inductive ProviderOp where
  | nextFrameOp
  | sessionYamlOp
deriving DecidableEq, Repr

/-- Apply one provider operation, keeping only the state. -/
def AcceleratedReplayProvider.applyOp (p : AcceleratedReplayProvider) :
    ProviderOp → AcceleratedReplayProvider
  | .nextFrameOp => p.nextFrame.1
  | .sessionYamlOp => p

/-- Apply a whole lifetime of provider operations. -/
def AcceleratedReplayProvider.applyOps (p : AcceleratedReplayProvider) :
    List ProviderOp → AcceleratedReplayProvider
  | [] => p
  | op :: rest => (p.applyOp op).applyOps rest

/-! # Helper lemmas -/

theorem readerRun_nil (yam : Nat → SessionYamlResult) (s : ReaderState) :
    readerRun yam s [] = (s, []) := rfl

theorem readerRun_cons (yam : Nat → SessionYamlResult) (s : ReaderState)
    (r : ProviderResult) (rest : List ProviderResult) :
    readerRun yam s (r :: rest) =
      if (readerStep yam s r).2.2 then
        ((readerRun yam (readerStep yam s r).1 rest).1,
          (readerStep yam s r).2.1 ++
            (readerRun yam (readerStep yam s r).1 rest).2)
      else ((readerStep yam s r).1, (readerStep yam s r).2.1) := rfl

theorem readerStep_frame_same (yam : Nat → SessionYamlResult)
    (s : ReaderState) (p : FramePacket)
    (h : s.lastSessionVersion = some p.sessionVersion) :
    readerStep yam s (.frame p) =
      (⟨s.frameCount + 1, 0, s.lastSessionVersion, some p⟩,
        [ReaderEvent.framePublished p], true) := by
  simp [readerStep, h]

theorem readerStep_frame_change (yam : Nat → SessionYamlResult)
    (s : ReaderState) (p : FramePacket)
    (h : ¬ s.lastSessionVersion = some p.sessionVersion) :
    readerStep yam s (.frame p) =
      (⟨s.frameCount + 1, 0, some p.sessionVersion, some p⟩,
        ReaderEvent.sessionYamlRequested p.sessionVersion ::
          ((match yam p.sessionVersion with
            | .text yaml => [ReaderEvent.parseTaskSpawned p.sessionVersion yaml]
            | .absent => []
            | .fetchError _ => []) ++ [ReaderEvent.framePublished p]),
        true) := by
  simp [readerStep, h]

theorem readerStep_endOfStream (yam : Nat → SessionYamlResult)
    (s : ReaderState) :
    readerStep yam s .endOfStream = (s, [ReaderEvent.stoppedGraceful], false) :=
  rfl

theorem readerStep_readError_backoff (yam : Nat → SessionYamlResult)
    (s : ReaderState) (m : String) (h : s.errorCount + 1 < maxErrors) :
    readerStep yam s (.readError m) =
      (⟨s.frameCount, s.errorCount + 1, s.lastSessionVersion, s.currentFrame⟩,
        [ReaderEvent.backoffSlept (backoffMillis (s.errorCount + 1))],
        true) := by
  simp only [readerStep]
  rw [if_neg (by omega)]

theorem readerStep_readError_fatal (yam : Nat → SessionYamlResult)
    (s : ReaderState) (m : String) (h : maxErrors ≤ s.errorCount + 1) :
    readerStep yam s (.readError m) =
      (⟨s.frameCount, s.errorCount + 1, s.lastSessionVersion, s.currentFrame⟩,
        [ReaderEvent.stoppedFatal], false) := by
  simp only [readerStep]
  rw [if_pos h]

theorem publishedPackets_append (a b : List ReaderEvent) :
    publishedPackets (a ++ b) = publishedPackets a ++ publishedPackets b := by
  simp [publishedPackets]

theorem requestedVersions_append (a b : List ReaderEvent) :
    requestedVersions (a ++ b) = requestedVersions a ++ requestedVersions b := by
  simp [requestedVersions]

theorem publishedPackets_changeEvents (v : Nat) (o : SessionYamlResult)
    (p : FramePacket) :
    publishedPackets (ReaderEvent.sessionYamlRequested v ::
      ((match o with
        | .text yaml => [ReaderEvent.parseTaskSpawned v yaml]
        | .absent => []
        | .fetchError _ => []) ++ [ReaderEvent.framePublished p])) = [p] := by
  cases o <;> simp [publishedPackets]

theorem requestedVersions_changeEvents (v : Nat) (o : SessionYamlResult)
    (p : FramePacket) :
    requestedVersions (ReaderEvent.sessionYamlRequested v ::
      ((match o with
        | .text yaml => [ReaderEvent.parseTaskSpawned v yaml]
        | .absent => []
        | .fetchError _ => []) ++ [ReaderEvent.framePublished p])) = [v] := by
  cases o <;> simp [requestedVersions]

theorem publishedPackets_framePublished (p : FramePacket) :
    publishedPackets [ReaderEvent.framePublished p] = [p] := by
  simp [publishedPackets]

theorem publishedPackets_backoff (n : Nat) :
    publishedPackets [ReaderEvent.backoffSlept n] = [] := by
  simp [publishedPackets]

theorem pacing_preserved_by_op (p : AcceleratedReplayProvider)
    (op : ProviderOp) :
    (p.applyOp op).speed = p.speed ∧
    (p.applyOp op).intervalSeconds = p.intervalSeconds := by
  cases op with
  | sessionYamlOp => exact ⟨rfl, rfl⟩
  | nextFrameOp =>
    simp only [AcceleratedReplayProvider.applyOp,
      AcceleratedReplayProvider.nextFrame]
    by_cases h : p.totalFrames ≤ p.cursor
    · rw [if_pos h]
      exact ⟨rfl, rfl⟩
    · rw [if_neg h]
      cases p.framesData.get? p.cursor <;> exact ⟨rfl, rfl⟩

theorem pacing_preserved_by_ops (p : AcceleratedReplayProvider)
    (ops : List ProviderOp) :
    (p.applyOps ops).speed = p.speed ∧
    (p.applyOps ops).intervalSeconds = p.intervalSeconds := by
  induction ops generalizing p with
  | nil => exact ⟨rfl, rfl⟩
  | cons op rest ih =>
    have h1 := pacing_preserved_by_op p op
    have h2 := ih (p.applyOp op)
    exact ⟨h2.1.trans h1.1, h2.2.trans h1.2⟩

theorem lookup_isSome_iff_mem_keys (l : List (String × RawVariableInfo))
    (v : String) :
    (l.lookup v).isSome = true ↔ v ∈ l.map Prod.fst := by
  induction l with
  | nil => simp
  | cons hd tl ih =>
    obtain ⟨k, info⟩ := hd
    by_cases hv : v = k
    · subst hv
      have hbeq : (v == v) = true := beq_self_eq_true v
      simp only [List.lookup, hbeq, List.map_cons, List.mem_cons]
      simp
    · have hbeq : (v == k) = false := beq_eq_false_iff_ne.mpr hv
      simp only [List.lookup, hbeq, List.map_cons, List.mem_cons]
      rw [ih]
      constructor
      · intro hmem
        exact Or.inr hmem
      · intro hor
        rcases hor with h1 | h1
        · exact absurd h1 hv
        · exact h1

theorem mem_availableFields_iff (schema : VariableSchema) (v : String) :
    v ∈ schema.availableFields ↔ (schema.getVariable v).isSome = true := by
  rw [VariableSchema.availableFields, VariableSchema.getVariable]
  exact (lookup_isSome_iff_mem_keys schema.vars v).symm

theorem resolveBitfieldItem_error_shape (schema : VariableSchema)
    (name : String) (tio : Bool) (de : Option String) (fim : Bool)
    (e : TelemetryError)
    (h : resolveBitfieldItem schema name tio de fim = .error e) :
    schema.getVariable name = none ∧
      e = criticalFieldError name schema.availableFields := by
  cases fim with
  | false =>
    exfalso
    cases tio with
    | true => simp [resolveBitfieldItem] at h
    | false => cases de <;> simp [resolveBitfieldItem] at h
  | true =>
    cases hg : schema.getVariable name with
    | some info => simp [resolveBitfieldItem, hg] at h
    | none =>
      simp [resolveBitfieldItem, hg] at h
      exact ⟨rfl, h.symm⟩

theorem resolvePlanItem_error_shape (schema : VariableSchema)
    (s : FieldStrategy) (e : TelemetryError)
    (h : resolvePlanItem schema s = .error e) :
    ∃ f, s.sourceName = some f ∧ schema.getVariable f = none ∧
      e = criticalFieldError f schema.availableFields := by
  cases s with
  | critical name =>
    refine ⟨name, rfl, ?_⟩
    cases hg : schema.getVariable name with
    | some info => simp [resolvePlanItem, hg] at h
    | none =>
      simp [resolvePlanItem, hg] at h
      exact ⟨rfl, h.symm⟩
  | optionalStrategy name => simp [resolvePlanItem] at h
  | withDefaultStrategy name de => simp [resolvePlanItem] at h
  | typeDefault name => simp [resolvePlanItem] at h
  | bitfieldHas name tio de fim =>
    exact ⟨name, rfl, resolveBitfieldItem_error_shape schema name tio de fim e h⟩
  | bitfieldMap name tio de fim =>
    exact ⟨name, rfl, resolveBitfieldItem_error_shape schema name tio de fim e h⟩
  | calculatedStrategy expr => simp [resolvePlanItem] at h
  | skipStrategy => simp [resolvePlanItem] at h

theorem resolvePlanItem_error_of_required_missing (schema : VariableSchema)
    (s : FieldStrategy) (f : String)
    (hreq : s.isRequiredStrategy = true) (hname : s.sourceName = some f)
    (hmiss : schema.getVariable f = none) :
    resolvePlanItem schema s =
      .error (criticalFieldError f schema.availableFields) := by
  cases s with
  | critical name =>
    have hf : name = f := Option.some.inj hname
    subst hf
    simp [resolvePlanItem, hmiss]
  | optionalStrategy name => simp [FieldStrategy.isRequiredStrategy] at hreq
  | withDefaultStrategy name de =>
    simp [FieldStrategy.isRequiredStrategy] at hreq
  | typeDefault name => simp [FieldStrategy.isRequiredStrategy] at hreq
  | bitfieldHas name tio de fim =>
    have hf : name = f := Option.some.inj hname
    subst hf
    have hfim : fim = true := hreq
    subst hfim
    simp [resolvePlanItem, resolveBitfieldItem, hmiss]
  | bitfieldMap name tio de fim =>
    have hf : name = f := Option.some.inj hname
    subst hf
    have hfim : fim = true := hreq
    subst hfim
    simp [resolvePlanItem, resolveBitfieldItem, hmiss]
  | calculatedStrategy expr => simp [FieldStrategy.isRequiredStrategy] at hreq
  | skipStrategy => simp [FieldStrategy.isRequiredStrategy] at hreq

theorem validateSchema_error_of_required_missing
    (strategies : List FieldStrategy) (schema : VariableSchema)
    (h : ∃ s ∈ strategies, s.isRequiredStrategy = true ∧
      ∃ f, s.sourceName = some f ∧ schema.getVariable f = none) :
    ∃ f, schema.getVariable f = none ∧
      validateSchema strategies schema =
        .error (criticalFieldError f schema.availableFields) := by
  induction strategies with
  | nil =>
    obtain ⟨s, hs, _⟩ := h
    exact absurd hs (List.not_mem_nil s)
  | cons s0 rest ih =>
    obtain ⟨s, hs, hreq, f, hname, hmiss⟩ := h
    cases hres : resolvePlanItem schema s0 with
    | error e =>
      obtain ⟨g, _, hg2, hg3⟩ := resolvePlanItem_error_shape schema s0 e hres
      refine ⟨g, hg2, ?_⟩
      simp [validateSchema, hres, hg3]
    | ok item =>
      have hs2 : s ∈ rest := by
        rcases List.mem_cons.mp hs with h1 | h1
        · subst h1
          have hcontr :=
            resolvePlanItem_error_of_required_missing schema s f hreq hname hmiss
          rw [hcontr] at hres
          exact absurd hres (by simp)
        · exact h1
      obtain ⟨g, hg2, hg3⟩ := ih ⟨s, hs2, hreq, f, hname, hmiss⟩
      refine ⟨g, hg2, ?_⟩
      simp [validateSchema, hres, hg3]

/-! # Claim theorems -/

/-- C1: for every consumer type and every schema missing at least one of the
type's Required (fail_if_missing) fields, `validate_schema` returns the
connection-aborting error whose diagnostic carries the list of every
variable actually present in the schema (the list is exactly the set of
present variables), and `subscribe` fails with that same error for every
possible incoming packet sequence - before any packet is decoded and before
any stream item is produced. -/
theorem required_absent_fails_validation_and_subscribe
    (strategies : List FieldStrategy) (schema : VariableSchema)
    (h : ∃ s ∈ strategies, s.isRequiredStrategy = true ∧
      ∃ f, s.sourceName = some f ∧ schema.getVariable f = none) :
    ∃ f, schema.getVariable f = none ∧
      validateSchema strategies schema =
        .error (criticalFieldError f schema.availableFields) ∧
      (∀ (V : Type) (adaptFn : List FieldExtraction → FramePacket → V)
        (packets : List FramePacket),
        subscribeRun strategies schema adaptFn packets =
          .error (criticalFieldError f schema.availableFields)) ∧
      (∀ v, v ∈ schema.availableFields ↔
        (schema.getVariable v).isSome = true) := by
  obtain ⟨f, hmiss, herr⟩ :=
    validateSchema_error_of_required_missing strategies schema h
  refine ⟨f, hmiss, herr, ?_, fun v => mem_availableFields_iff schema v⟩
  intro V adaptFn packets
  simp [subscribeRun, herr]

/-- C1 witness: the consumer type [Required Speed] against a schema holding
only RPM: validation and subscribe fail with the diagnostic listing RPM. -/
theorem required_absent_fails_validation_and_subscribe_witness :
    ∃ f,
      (VariableSchema.mk
        [("RPM", ⟨"RPM", 0, VarDataType.floatType, 1⟩)]).getVariable f =
        none ∧
      validateSchema [FieldStrategy.critical "Speed"]
        (VariableSchema.mk
          [("RPM", ⟨"RPM", 0, VarDataType.floatType, 1⟩)]) =
        .error (criticalFieldError f
          (VariableSchema.mk
            [("RPM", ⟨"RPM", 0, VarDataType.floatType, 1⟩)]).availableFields) ∧
      (∀ (V : Type) (adaptFn : List FieldExtraction → FramePacket → V)
        (packets : List FramePacket),
        subscribeRun [FieldStrategy.critical "Speed"]
          (VariableSchema.mk
            [("RPM", ⟨"RPM", 0, VarDataType.floatType, 1⟩)]) adaptFn packets =
          .error (criticalFieldError f
            (VariableSchema.mk
              [("RPM", ⟨"RPM", 0, VarDataType.floatType, 1⟩)]).availableFields)) ∧
      (∀ v,
        v ∈ (VariableSchema.mk
          [("RPM", ⟨"RPM", 0, VarDataType.floatType, 1⟩)]).availableFields ↔
        ((VariableSchema.mk
          [("RPM", ⟨"RPM", 0, VarDataType.floatType, 1⟩)]).getVariable
            v).isSome = true) :=
  required_absent_fails_validation_and_subscribe
    [FieldStrategy.critical "Speed"]
    (VariableSchema.mk [("RPM", ⟨"RPM", 0, VarDataType.floatType, 1⟩)])
    ⟨FieldStrategy.critical "Speed", by decide, by decide, "Speed", rfl,
      by decide⟩

/-- C2: the claim says every subscriber stream eventually observes closure
once the reader loop exits while the Connection is still alive. On the code,
the reader loop does exit on end-of-stream (emitting only the graceful stop),
and its sender clone is dropped - but `ReplayConnection.frame_tx` still holds
a live sender, so by the broadcast closure rule a subscriber does not observe
`Closed`; it only does once the Connection itself is dropped. This theorem
evaluates the embedded model at that failing input, exhibiting the
divergence. -/
theorem reader_exit_leaves_subscriber_stream_open :
    (readerRun (fun _ => SessionYamlResult.absent) initialReaderState
      [ProviderResult.endOfStream]).2 = [ReaderEvent.stoppedGraceful] ∧
    receiverObservesClosed (holdersAfterReaderExit holdersAfterOpen) = false ∧
    receiverObservesClosed
      (holdersAfterConnectionDrop (holdersAfterReaderExit holdersAfterOpen)) =
      true := by
  decide

/-- C3: the claim (and the comment in `frame_reader_task`) says the backoff
after the first consecutive error is 50ms, doubling thereafter. The code
computes `50 * (1 << error_count.min(5))` with the already-incremented
counter, so the first sleep is 100ms (and the cap is 1600ms): the reader
loop run on a single read error sleeps 100ms, not 50ms. -/
theorem first_backoff_sleep_is_100ms :
    backoffMillis 1 = 100 ∧ ¬ backoffMillis 1 = 50 ∧
    (readerRun (fun _ => SessionYamlResult.absent) initialReaderState
      [ProviderResult.readError "io"]).2 = [ReaderEvent.backoffSlept 100] ∧
    backoffMillis 6 = 1600 ∧ backoffMillis 7 = 1600 := by
  decide

/-- C4 counterexample: on ten consecutive provider errors the reader loop
does stop fatally (last event of the run), but - against the claim's
"closing every subscriber's stream" - a subscriber does not observe closure,
because the Connection still holds a frame sender after the reader task
exits. -/
theorem fatal_stop_without_stream_closure :
    (readerRun (fun _ => SessionYamlResult.absent) initialReaderState
      (List.replicate 10 (ProviderResult.readError "io"))).2.getLast? =
      some ReaderEvent.stoppedFatal ∧
    receiverObservesClosed (holdersAfterReaderExit holdersAfterOpen) =
      false := by
  decide

/-- C7 counterexample: the claim quantifies over every consumer type with an
Optional field, but validation of a type that also carries a Required field
absent from the schema fails even though the Optional field's premise holds:
for the type [Required Speed, Optional Gear] and the empty schema, the
Optional field Gear is absent, yet `validate_schema` returns the
connection-aborting error for Speed instead of succeeding. -/
theorem optional_absent_validation_can_fail :
    FieldStrategy.optionalStrategy "Gear" ∈
      [FieldStrategy.critical "Speed", FieldStrategy.optionalStrategy "Gear"] ∧
    (VariableSchema.mk []).getVariable "Gear" = none ∧
    validateSchema
      [FieldStrategy.critical "Speed", FieldStrategy.optionalStrategy "Gear"]
      (VariableSchema.mk []) = .error (criticalFieldError "Speed" []) :=
  ⟨by decide, rfl, rfl⟩

/-- C5: `AcceleratedReplayProvider::new` stores the requested speed clamped
to [0.1, 100.0], its pacing interval is the recording's native interval
(1 / tick_rate seconds) divided by the clamped speed, and neither the speed
nor the interval changes over any sequence of provider operations. -/
theorem accelerated_speed_clamped_interval_fixed
    (frames : List FramePacket) (tickRate requestedSpeed : ℚ) :
    (AcceleratedReplayProvider.new frames tickRate requestedSpeed).speed =
      clampQ requestedSpeed (1 / 10) 100 ∧
    (AcceleratedReplayProvider.new frames tickRate
        requestedSpeed).intervalSeconds =
      (1 / tickRate) /
        (AcceleratedReplayProvider.new frames tickRate requestedSpeed).speed ∧
    ∀ ops : List ProviderOp,
      ((AcceleratedReplayProvider.new frames tickRate
          requestedSpeed).applyOps ops).speed =
        (AcceleratedReplayProvider.new frames tickRate requestedSpeed).speed ∧
      ((AcceleratedReplayProvider.new frames tickRate
          requestedSpeed).applyOps ops).intervalSeconds =
        (AcceleratedReplayProvider.new frames tickRate
          requestedSpeed).intervalSeconds := by
  refine ⟨rfl, ?_, fun ops => pacing_preserved_by_ops _ ops⟩
  simp only [AcceleratedReplayProvider.new]
  rw [div_div]

/-- C6 counterexample: the claim quantifies over every source, but the live
source's `connect` performs no first-frame wait and no 5-second timeout at
all - it returns a usable, empty connection immediately - while only the
replay `open` performs the claimed bounded wait. -/
theorem live_connect_performs_no_first_frame_wait :
    liveConnectFirstFrameWait = FirstFrameWait.noWait ∧
    ¬ liveConnectFirstFrameWait = FirstFrameWait.boundedWait 5 ∧
    replayOpenFirstFrameWait = FirstFrameWait.boundedWait 5 ∧
    connectLive (.ok ⟨⟨[]⟩, 60⟩) = .ok ⟨⟨[]⟩, 60, none⟩ ∧
    (LiveConnectionModel.mk ⟨[]⟩ 60 none).currentFrame = none :=
  ⟨rfl, by decide, rfl, rfl, rfl⟩

/-- C6 (amended): the replay `open` waits for the first frame or a bounded
5-second timeout, and timing out is logged, not fatal: `open` still returns
a usable connection whose synchronous frame getter starts empty. The live
`connect` performs no first-frame wait at all and likewise returns a usable
connection immediately, its getter starting empty - so the original claim's
"for every source" fails for the live source (see the counterexample). -/
theorem open_timeout_not_fatal (m : ProviderMeta) :
    replayOpenFirstFrameWait =
      FirstFrameWait.boundedWait openTimeoutSeconds ∧
    openTimeoutSeconds = 5 ∧
    openReplay (.ok m) .timedOut =
      .ok ⟨m.schema, m.sourceHz, none, true⟩ ∧
    (ReplayConnectionModel.mk m.schema m.sourceHz none true).currentFrame =
      none ∧
    (ReplayConnectionModel.mk m.schema m.sourceHz none true).warnedTimeout =
      true ∧
    liveConnectFirstFrameWait = FirstFrameWait.noWait ∧
    connectLive (.ok m) = .ok ⟨m.schema, m.sourceHz, none⟩ ∧
    (LiveConnectionModel.mk m.schema m.sourceHz none).currentFrame = none :=
  ⟨rfl, rfl, rfl, rfl, rfl, rfl, rfl, rfl⟩

theorem resolvePlanItem_ok_of_required_present (schema : VariableSchema)
    (s : FieldStrategy)
    (hreq : s.isRequiredStrategy = true →
      ∃ f, s.sourceName = some f ∧ (schema.getVariable f).isSome = true) :
    ∃ item, resolvePlanItem schema s = .ok item := by
  cases s with
  | critical name =>
    obtain ⟨f, hname, hsome⟩ := hreq rfl
    have hf : name = f := Option.some.inj hname
    subst hf
    cases hg : schema.getVariable name with
    | none => rw [hg] at hsome; simp at hsome
    | some info =>
      exact ⟨.required name info, by simp [resolvePlanItem, hg]⟩
  | optionalStrategy name => exact ⟨_, rfl⟩
  | withDefaultStrategy name de => exact ⟨_, rfl⟩
  | typeDefault name => exact ⟨_, rfl⟩
  | calculatedStrategy expr => exact ⟨_, rfl⟩
  | skipStrategy => exact ⟨_, rfl⟩
  | bitfieldHas name tio de fim =>
    cases fim with
    | true =>
      obtain ⟨f, hname, hsome⟩ := hreq rfl
      have hf : name = f := Option.some.inj hname
      subst hf
      cases hg : schema.getVariable name with
      | none => rw [hg] at hsome; simp at hsome
      | some info =>
        exact ⟨.required name info,
          by simp [resolvePlanItem, resolveBitfieldItem, hg]⟩
    | false =>
      cases tio with
      | true =>
        exact ⟨.optionalField name (schema.getVariable name),
          by simp [resolvePlanItem, resolveBitfieldItem]⟩
      | false =>
        cases de with
        | some e =>
          exact ⟨.withDefault name (schema.getVariable name)
            (.explicitExpression e),
            by simp [resolvePlanItem, resolveBitfieldItem]⟩
        | none =>
          exact ⟨.withDefault name (schema.getVariable name) .typeDefault,
            by simp [resolvePlanItem, resolveBitfieldItem]⟩
  | bitfieldMap name tio de fim =>
    cases fim with
    | true =>
      obtain ⟨f, hname, hsome⟩ := hreq rfl
      have hf : name = f := Option.some.inj hname
      subst hf
      cases hg : schema.getVariable name with
      | none => rw [hg] at hsome; simp at hsome
      | some info =>
        exact ⟨.required name info,
          by simp [resolvePlanItem, resolveBitfieldItem, hg]⟩
    | false =>
      cases tio with
      | true =>
        exact ⟨.optionalField name (schema.getVariable name),
          by simp [resolvePlanItem, resolveBitfieldItem]⟩
      | false =>
        cases de with
        | some e =>
          exact ⟨.withDefault name (schema.getVariable name)
            (.explicitExpression e),
            by simp [resolvePlanItem, resolveBitfieldItem]⟩
        | none =>
          exact ⟨.withDefault name (schema.getVariable name) .typeDefault,
            by simp [resolvePlanItem, resolveBitfieldItem]⟩

theorem validateSchema_ok_of_required_present
    (strategies : List FieldStrategy) (schema : VariableSchema)
    (hreq : ∀ s ∈ strategies, s.isRequiredStrategy = true →
      ∃ f, s.sourceName = some f ∧ (schema.getVariable f).isSome = true) :
    ∃ plan, validateSchema strategies schema = .ok plan ∧
      ∀ i s0 item, strategies.get? i = some s0 →
        resolvePlanItem schema s0 = .ok item →
        plan.get? i = some item := by
  induction strategies with
  | nil =>
    refine ⟨[], rfl, ?_⟩
    intro i s0 item hget
    simp at hget
  | cons s0 rest ih =>
    obtain ⟨item0, hitem0⟩ :=
      resolvePlanItem_ok_of_required_present schema s0
        (hreq s0 (List.mem_cons_self s0 rest))
    obtain ⟨plan2, hok2, hcorr2⟩ :=
      ih fun s hs => hreq s (List.mem_cons_of_mem s0 hs)
    refine ⟨item0 :: plan2, ?_, ?_⟩
    · simp [validateSchema, hitem0, hok2]
    · intro i s1 item hget hres
      cases i with
      | zero =>
        have hs1 : s0 = s1 := by simpa using hget
        subst hs1
        rw [hitem0] at hres
        have hii : item0 = item := Except.ok.inj hres
        simp [hii]
      | succ j =>
        exact hcorr2 j s1 item (by simpa using hget) hres

/-- C7 (amended): for every consumer type whose Required (fail_if_missing)
fields are all present in the schema, validation succeeds, and an Optional
field whose variable is absent from the schema resolves to a plan entry with
no variable info, so every instance produced by adapt has that field equal to
none - regardless of the packet bytes and of the decoder - and adapt never
faults on it (the original claim, which asserted that validation succeeds for
every such type, fails when the type also has a Required field that is
absent; see the counterexample). -/
theorem optional_absent_yields_none
    (strategies : List FieldStrategy) (schema : VariableSchema)
    (hreq : ∀ s ∈ strategies, s.isRequiredStrategy = true →
      ∃ f, s.sourceName = some f ∧ (schema.getVariable f).isSome = true)
    (index : Nat) (fieldName : String)
    (hidx : strategies.get? index = some (.optionalStrategy fieldName))
    (habs : schema.getVariable fieldName = none) :
    ∃ plan, validateSchema strategies schema = .ok plan ∧
      plan.get? index = some (.optionalField fieldName none) ∧
      ∀ (W : Type) (data : List Nat)
        (fromBytes : List Nat → RawVariableInfo → Except String W)
        (warned : Bool),
        adaptOptionalField plan index data fromBytes warned =
          (none, warned, false) := by
  obtain ⟨plan, hok, hcorr⟩ :=
    validateSchema_ok_of_required_present strategies schema hreq
  have hres : resolvePlanItem schema (.optionalStrategy fieldName) =
      .ok (.optionalField fieldName none) := by
    simp [resolvePlanItem, habs]
  have hplan := hcorr index _ _ hidx hres
  refine ⟨plan, hok, hplan, ?_⟩
  intro W data fromBytes warned
  rw [List.get?_eq_getElem?] at hplan
  simp [adaptOptionalField, hplan]

/-- C7 witness: the type [Required Speed, Optional Gear] against a schema
holding only Speed: validation succeeds and the absent Gear decodes to none
for every packet and decoder. -/
theorem optional_absent_yields_none_witness :
    ∃ plan,
      validateSchema
        [FieldStrategy.critical "Speed", FieldStrategy.optionalStrategy "Gear"]
        (VariableSchema.mk
          [("Speed", ⟨"Speed", 0, VarDataType.floatType, 1⟩)]) = .ok plan ∧
      plan.get? 1 = some (.optionalField "Gear" none) ∧
      ∀ (W : Type) (data : List Nat)
        (fromBytes : List Nat → RawVariableInfo → Except String W)
        (warned : Bool),
        adaptOptionalField plan 1 data fromBytes warned =
          (none, warned, false) :=
  optional_absent_yields_none
    [FieldStrategy.critical "Speed", FieldStrategy.optionalStrategy "Gear"]
    (VariableSchema.mk [("Speed", ⟨"Speed", 0, VarDataType.floatType, 1⟩)])
    (fun s hs hr => by
      rcases List.mem_cons.mp hs with h1 | h1
      · subst h1
        exact ⟨"Speed", rfl, by decide⟩
      · rcases List.mem_cons.mp h1 with h2 | h2
        · subst h2
          simp [FieldStrategy.isRequiredStrategy] at hr
        · exact absurd h2 (List.not_mem_nil s))
    1 "Gear" (by decide) (by decide)

/-- C8: when the on-wire type differs from the declared type (the decoder
errors), a WithDefault or TypeDefault field degrades to its default, an
Optional field degrades to none - in each case setting the per-field warned
flag and logging exactly when the flag was not yet set (the `Once`), never
faulting - while a Required field panics instead of degrading. -/
theorem type_mismatch_degrades_except_required
    {V W : Type} (plan : List FieldExtraction)
    (indexA indexB indexC : Nat) (data : List Nat)
    (nameA nameB nameC fieldName : String) (varInfo : RawVariableInfo)
    (defaultKind : DefaultValue)
    (fromBytesV : List Nat → RawVariableInfo → Except String V)
    (fromBytesW : List Nat → RawVariableInfo → Except String W)
    (errV errW : String) (defaultValue fallbackValue : V) (warned : Bool)
    (hv : fromBytesV data varInfo = .error errV)
    (hw : fromBytesW data varInfo = .error errW)
    (hA : plan.get? indexA =
      some (.withDefault nameA (some varInfo) defaultKind))
    (hB : plan.get? indexB = some (.optionalField nameB (some varInfo)))
    (hC : plan.get? indexC = some (.required nameC varInfo)) :
    adaptTypeDefaultField plan indexA data fromBytesV defaultValue warned =
      (defaultValue, true, !warned) ∧
    adaptWithDefaultField plan indexA data fromBytesV fallbackValue warned =
      (fallbackValue, true, !warned) ∧
    adaptOptionalField plan indexB data fromBytesW warned =
      (none, true, !warned) ∧
    adaptCriticalField plan indexC data fromBytesV fieldName =
      .panicked ("Failed to decode critical field " ++ nameC ++
        " during adapt: " ++ errV) := by
  rw [List.get?_eq_getElem?] at hA hB hC
  refine ⟨?_, ?_, ?_, ?_⟩
  · simp [adaptTypeDefaultField, hA, hv]
  · simp [adaptWithDefaultField, hA, hv]
  · simp [adaptOptionalField, hB, hw]
  · simp [adaptCriticalField, hC, hv]

/-- C8 witness: a concrete three-entry plan whose entries all point at the
same variable, with decoders that always report a type mismatch - the
defaulted and optional fields degrade (logging, since the flag starts
unset), the required field panics. -/
theorem type_mismatch_degrades_except_required_witness :
    adaptTypeDefaultField
      [FieldExtraction.withDefault "Fuel"
          (some ⟨"Speed", 8, VarDataType.floatType, 1⟩) .typeDefault,
        FieldExtraction.optionalField "Gear"
          (some ⟨"Speed", 8, VarDataType.floatType, 1⟩),
        FieldExtraction.required "Speed"
          ⟨"Speed", 8, VarDataType.floatType, 1⟩]
      0 [1, 2, 3] (fun _ _ => .error "type mismatch") (0 : Nat) false =
      (0, true, !false) ∧
    adaptWithDefaultField
      [FieldExtraction.withDefault "Fuel"
          (some ⟨"Speed", 8, VarDataType.floatType, 1⟩) .typeDefault,
        FieldExtraction.optionalField "Gear"
          (some ⟨"Speed", 8, VarDataType.floatType, 1⟩),
        FieldExtraction.required "Speed"
          ⟨"Speed", 8, VarDataType.floatType, 1⟩]
      0 [1, 2, 3] (fun _ _ => .error "type mismatch") (50 : Nat) false =
      (50, true, !false) ∧
    adaptOptionalField
      [FieldExtraction.withDefault "Fuel"
          (some ⟨"Speed", 8, VarDataType.floatType, 1⟩) .typeDefault,
        FieldExtraction.optionalField "Gear"
          (some ⟨"Speed", 8, VarDataType.floatType, 1⟩),
        FieldExtraction.required "Speed"
          ⟨"Speed", 8, VarDataType.floatType, 1⟩]
      1 [1, 2, 3] (fun _ _ => (.error "type mismatch" : Except String Nat))
      false = (none, true, !false) ∧
    adaptCriticalField
      [FieldExtraction.withDefault "Fuel"
          (some ⟨"Speed", 8, VarDataType.floatType, 1⟩) .typeDefault,
        FieldExtraction.optionalField "Gear"
          (some ⟨"Speed", 8, VarDataType.floatType, 1⟩),
        FieldExtraction.required "Speed"
          ⟨"Speed", 8, VarDataType.floatType, 1⟩]
      2 [1, 2, 3] (fun _ _ => (.error "type mismatch" : Except String Nat))
      "Speed" =
      .panicked ("Failed to decode critical field " ++ "Speed" ++
        " during adapt: " ++ "type mismatch") :=
  type_mismatch_degrades_except_required
    (V := Nat) (W := Nat)
    [FieldExtraction.withDefault "Fuel"
        (some ⟨"Speed", 8, VarDataType.floatType, 1⟩) .typeDefault,
      FieldExtraction.optionalField "Gear"
        (some ⟨"Speed", 8, VarDataType.floatType, 1⟩),
      FieldExtraction.required "Speed"
        ⟨"Speed", 8, VarDataType.floatType, 1⟩]
    0 1 2 [1, 2, 3] "Fuel" "Gear" "Speed" "Speed"
    ⟨"Speed", 8, VarDataType.floatType, 1⟩ .typeDefault
    (fun _ _ => .error "type mismatch") (fun _ _ => .error "type mismatch")
    "type mismatch" "type mismatch" 0 50 false rfl rfl (by decide) (by decide)
    (by decide)

theorem readerRun_requests_eq_changePoints (yam : Nat → SessionYamlResult)
    (input : List ProviderResult) (s : ReaderState) :
    requestedVersions (readerRun yam s input).2 =
      versionChangePoints s.lastSessionVersion
        ((publishedPackets (readerRun yam s input).2).map
          FramePacket.sessionVersion) := by
  induction input generalizing s with
  | nil =>
    simp [readerRun, publishedPackets, requestedVersions, versionChangePoints]
  | cons r rest ih =>
    cases r with
    | frame p =>
      by_cases hv : s.lastSessionVersion = some p.sessionVersion
      · rw [readerRun_cons, readerStep_frame_same yam s p hv]
        simp only [if_true]
        rw [requestedVersions_append, publishedPackets_append]
        have hreq0 : requestedVersions [ReaderEvent.framePublished p] = [] := by
          simp [requestedVersions]
        have hpub0 : publishedPackets [ReaderEvent.framePublished p] = [p] := by
          simp [publishedPackets]
        rw [hreq0, hpub0]
        rw [ih]
        simp [versionChangePoints, hv]
      · rw [readerRun_cons, readerStep_frame_change yam s p hv]
        simp only [if_true]
        rw [requestedVersions_append, publishedPackets_append]
        rw [requestedVersions_changeEvents, publishedPackets_changeEvents]
        rw [ih]
        simp [versionChangePoints, hv]
    | endOfStream =>
      rw [readerRun_cons, readerStep_endOfStream]
      simp [publishedPackets, requestedVersions, versionChangePoints]
    | readError m =>
      by_cases hc : maxErrors ≤ s.errorCount + 1
      · rw [readerRun_cons, readerStep_readError_fatal yam s m hc]
        simp [publishedPackets, requestedVersions, versionChangePoints]
      · rw [readerRun_cons,
          readerStep_readError_backoff yam s m (by omega)]
        simp only [if_true]
        rw [requestedVersions_append, publishedPackets_append]
        have hreq0 : requestedVersions
            [ReaderEvent.backoffSlept (backoffMillis (s.errorCount + 1))] =
            [] := by
          simp [requestedVersions]
        have hpub0 : publishedPackets
            [ReaderEvent.backoffSlept (backoffMillis (s.errorCount + 1))] =
            [] := by
          simp [publishedPackets]
        rw [hreq0, hpub0]
        rw [ih]
        simp

theorem readerRun_independent_of_yaml (yamA yamB : Nat → SessionYamlResult)
    (input : List ProviderResult) (s : ReaderState) :
    (readerRun yamA s input).1 = (readerRun yamB s input).1 ∧
    requestedVersions (readerRun yamA s input).2 =
      requestedVersions (readerRun yamB s input).2 ∧
    publishedPackets (readerRun yamA s input).2 =
      publishedPackets (readerRun yamB s input).2 := by
  induction input generalizing s with
  | nil => exact ⟨rfl, rfl, rfl⟩
  | cons r rest ih =>
    cases r with
    | frame p =>
      by_cases hv : s.lastSessionVersion = some p.sessionVersion
      · rw [readerRun_cons, readerRun_cons, readerStep_frame_same yamA s p hv,
          readerStep_frame_same yamB s p hv]
        simp only [if_true]
        obtain ⟨h1, h2, h3⟩ :=
          ih ⟨s.frameCount + 1, 0, s.lastSessionVersion, some p⟩
        refine ⟨h1, ?_, ?_⟩
        · rw [requestedVersions_append, requestedVersions_append, h2]
        · rw [publishedPackets_append, publishedPackets_append, h3]
      · rw [readerRun_cons, readerRun_cons,
          readerStep_frame_change yamA s p hv,
          readerStep_frame_change yamB s p hv]
        simp only [if_true]
        obtain ⟨h1, h2, h3⟩ :=
          ih ⟨s.frameCount + 1, 0, some p.sessionVersion, some p⟩
        refine ⟨h1, ?_, ?_⟩
        · rw [requestedVersions_append, requestedVersions_append, h2,
            requestedVersions_changeEvents, requestedVersions_changeEvents]
        · rw [publishedPackets_append, publishedPackets_append, h3,
            publishedPackets_changeEvents, publishedPackets_changeEvents]
    | endOfStream =>
      rw [readerRun_cons, readerRun_cons, readerStep_endOfStream,
        readerStep_endOfStream]
      exact ⟨rfl, rfl, rfl⟩
    | readError m =>
      by_cases hc : maxErrors ≤ s.errorCount + 1
      · rw [readerRun_cons, readerRun_cons,
          readerStep_readError_fatal yamA s m hc,
          readerStep_readError_fatal yamB s m hc]
        exact ⟨rfl, rfl, rfl⟩
      · rw [readerRun_cons, readerRun_cons,
          readerStep_readError_backoff yamA s m (by omega),
          readerStep_readError_backoff yamB s m (by omega)]
        simp only [if_true]
        obtain ⟨h1, h2, h3⟩ :=
          ih ⟨s.frameCount, s.errorCount + 1, s.lastSessionVersion,
            s.currentFrame⟩
        refine ⟨h1, ?_, ?_⟩
        · rw [requestedVersions_append, requestedVersions_append, h2]
        · rw [publishedPackets_append, publishedPackets_append, h3]

/-- C10: the reader loop requests `session_yaml` exactly at the packets
whose session_version differs from the previous packet's (the first packet
included, there being no previous version: the requested versions are
precisely the change points of the published version sequence), and the
version is recorded as seen whatever `session_yaml` returns and whatever the
subsequent parse does: the loop state and the request and publication events
are identical for any two session-yaml outcome assignments, so a failed or
absent enrichment is never retried until the version changes again. -/
theorem session_yaml_request_exactly_on_version_change
    (yamA yamB : Nat → SessionYamlResult) (s : ReaderState)
    (input : List ProviderResult) :
    requestedVersions (readerRun yamA s input).2 =
      versionChangePoints s.lastSessionVersion
        ((publishedPackets (readerRun yamA s input).2).map
          FramePacket.sessionVersion) ∧
    (readerRun yamA s input).1 = (readerRun yamB s input).1 ∧
    requestedVersions (readerRun yamA s input).2 =
      requestedVersions (readerRun yamB s input).2 ∧
    publishedPackets (readerRun yamA s input).2 =
      publishedPackets (readerRun yamB s input).2 :=
  ⟨readerRun_requests_eq_changePoints yamA input s,
    readerRun_independent_of_yaml yamA yamB input s⟩

theorem latestOr_cons (p : FramePacket) (l : List FramePacket)
    (d : Option FramePacket) :
    latestOr (p :: l) d = latestOr l (some p) := by
  cases l with
  | nil => rfl
  | cons q l2 =>
    cases hl : (q :: l2).getLast? with
    | none =>
      exfalso
      have := List.getLast?_isSome (l := q :: l2)
      rw [hl] at this
      simp at this
    | some b =>
      simp [latestOr, List.getLast?_cons_cons, hl]

theorem readerRun_currentFrame_latest (yam : Nat → SessionYamlResult)
    (input : List ProviderResult) (s : ReaderState) :
    (readerRun yam s input).1.currentFrame =
      latestOr (publishedPackets (readerRun yam s input).2) s.currentFrame := by
  induction input generalizing s with
  | nil => simp [readerRun, publishedPackets, latestOr]
  | cons r rest ih =>
    cases r with
    | frame p =>
      by_cases hv : s.lastSessionVersion = some p.sessionVersion
      · rw [readerRun_cons, readerStep_frame_same yam s p hv]
        simp only [if_true]
        rw [publishedPackets_append]
        have hpub0 : publishedPackets [ReaderEvent.framePublished p] = [p] := by
          simp [publishedPackets]
        rw [hpub0]
        rw [ih ⟨s.frameCount + 1, 0, s.lastSessionVersion, some p⟩]
        exact (latestOr_cons p _ s.currentFrame).symm
      · rw [readerRun_cons, readerStep_frame_change yam s p hv]
        simp only [if_true]
        rw [publishedPackets_append, publishedPackets_changeEvents]
        rw [ih ⟨s.frameCount + 1, 0, some p.sessionVersion, some p⟩]
        exact (latestOr_cons p _ s.currentFrame).symm
    | endOfStream =>
      rw [readerRun_cons, readerStep_endOfStream]
      simp [publishedPackets, latestOr]
    | readError m =>
      by_cases hc : maxErrors ≤ s.errorCount + 1
      · rw [readerRun_cons, readerStep_readError_fatal yam s m hc]
        simp [publishedPackets, latestOr]
      · rw [readerRun_cons,
          readerStep_readError_backoff yam s m (by omega)]
        simp only [if_true]
        rw [publishedPackets_append]
        have hpub0 : publishedPackets
            [ReaderEvent.backoffSlept (backoffMillis (s.errorCount + 1))] =
            [] := by
          simp [publishedPackets]
        rw [hpub0]
        exact ih ⟨s.frameCount, s.errorCount + 1, s.lastSessionVersion,
          s.currentFrame⟩

theorem publishedPackets_prefix_of_input (yam : Nat → SessionYamlResult)
    (input : List ProviderResult) (s : ReaderState) :
    ∃ rest, input.filterMap ProviderResult.packetOf =
      publishedPackets (readerRun yam s input).2 ++ rest := by
  induction input generalizing s with
  | nil => exact ⟨[], by simp [readerRun, publishedPackets]⟩
  | cons r rest ih =>
    cases r with
    | frame p =>
      by_cases hv : s.lastSessionVersion = some p.sessionVersion
      · rw [readerRun_cons, readerStep_frame_same yam s p hv]
        simp only [if_true]
        obtain ⟨tail, htail⟩ :=
          ih ⟨s.frameCount + 1, 0, s.lastSessionVersion, some p⟩
        refine ⟨tail, ?_⟩
        rw [publishedPackets_append]
        have hpub0 : publishedPackets [ReaderEvent.framePublished p] = [p] := by
          simp [publishedPackets]
        rw [hpub0]
        simp [ProviderResult.packetOf, htail]
      · rw [readerRun_cons, readerStep_frame_change yam s p hv]
        simp only [if_true]
        obtain ⟨tail, htail⟩ :=
          ih ⟨s.frameCount + 1, 0, some p.sessionVersion, some p⟩
        refine ⟨tail, ?_⟩
        rw [publishedPackets_append, publishedPackets_changeEvents]
        simp [ProviderResult.packetOf, htail]
    | endOfStream =>
      rw [readerRun_cons, readerStep_endOfStream]
      exact ⟨rest.filterMap ProviderResult.packetOf,
        by simp [publishedPackets, ProviderResult.packetOf]⟩
    | readError m =>
      by_cases hc : maxErrors ≤ s.errorCount + 1
      · rw [readerRun_cons, readerStep_readError_fatal yam s m hc]
        exact ⟨rest.filterMap ProviderResult.packetOf,
          by simp [publishedPackets, ProviderResult.packetOf]⟩
      · rw [readerRun_cons,
          readerStep_readError_backoff yam s m (by omega)]
        simp only [if_true]
        obtain ⟨tail, htail⟩ :=
          ih ⟨s.frameCount, s.errorCount + 1, s.lastSessionVersion,
            s.currentFrame⟩
        refine ⟨tail, ?_⟩
        rw [publishedPackets_append]
        have hpub0 : publishedPackets
            [ReaderEvent.backoffSlept (backoffMillis (s.errorCount + 1))] =
            [] := by
          simp [publishedPackets]
        rw [hpub0]
        simpa [ProviderResult.packetOf] using htail

theorem mem_publishedPackets (events : List ReaderEvent) (p : FramePacket)
    (h : ReaderEvent.framePublished p ∈ events) :
    p ∈ publishedPackets events := by
  rw [publishedPackets, List.mem_filterMap]
  exact ⟨ReaderEvent.framePublished p, h, rfl⟩

theorem pairwise_tick_le_getLast (l : List FramePacket) :
    List.Pairwise (fun a b => a.tick ≤ b.tick) l →
    ∀ a ∈ l, ∀ b, l.getLast? = some b → a.tick ≤ b.tick := by
  induction l with
  | nil =>
    intro _ a ha
    simp at ha
  | cons x xs ih =>
    intro hp a ha b hb
    rcases List.mem_cons.mp ha with h1 | h1
    · cases xs with
      | nil =>
        have hxb : x = b := by simpa using hb
        rw [h1, hxb]
      | cons y ys =>
        rw [List.getLast?_cons_cons] at hb
        have hbmem : b ∈ y :: ys := by
          obtain ⟨h9, h10⟩ := List.mem_getLast?_eq_getLast hb
          rw [h10]
          exact List.getLast_mem h9
        rw [h1]
        exact (List.pairwise_cons.mp hp).1 b hbmem
    · cases xs with
      | nil => simp at h1
      | cons y ys =>
        rw [List.getLast?_cons_cons] at hb
        exact ih (List.pairwise_cons.mp hp).2 a h1 b hb

/-- C9: the reader loop is the sole writer of `SyncState.current_frame` and
overwrites it with every packet it observes, so at every point of every run
the slot is either still empty or holds exactly the most recent published
packet; and when the provider's ticks are monotone (the data-model invariant
on FramePacket), every packet observed so far has a tick no larger than the
one the slot holds. -/
theorem syncstate_holds_latest_observed
    (yam : Nat → SessionYamlResult) (input : List ProviderResult)
    (hmono : List.Pairwise (fun a b => a.tick ≤ b.tick)
      (input.filterMap ProviderResult.packetOf)) :
    (∀ s, (readerRun yam s input).1.currentFrame =
      latestOr (publishedPackets (readerRun yam s input).2) s.currentFrame) ∧
    ∀ p, ReaderEvent.framePublished p ∈
        (readerRun yam initialReaderState input).2 →
      ∀ c, (readerRun yam initialReaderState input).1.currentFrame = some c →
        p.tick ≤ c.tick := by
  refine ⟨fun s => readerRun_currentFrame_latest yam input s, ?_⟩
  intro p hp c hc
  have hmem : p ∈ publishedPackets (readerRun yam initialReaderState input).2 :=
    mem_publishedPackets _ _ hp
  obtain ⟨rest, hpre⟩ :=
    publishedPackets_prefix_of_input yam input initialReaderState
  have hpw : List.Pairwise (fun a b => a.tick ≤ b.tick)
      (publishedPackets (readerRun yam initialReaderState input).2) := by
    rw [hpre] at hmono
    exact hmono.sublist (List.sublist_append_left _ _)
  have heq := readerRun_currentFrame_latest yam input initialReaderState
  rw [heq] at hc
  cases hl : (publishedPackets (readerRun yam initialReaderState input).2).getLast? with
  | none =>
    rw [latestOr, hl] at hc
    exact absurd hc (by simp [initialReaderState])
  | some q =>
    rw [latestOr, hl] at hc
    have hqc : q = c := Option.some.inj hc
    subst hqc
    exact pairwise_tick_le_getLast _ hpw p hmem q hl

/-- C9 witness: two frames with ticks 1 and 2 - the final SyncState holds
the tick-2 frame and every published packet's tick is bounded by it. -/
theorem syncstate_holds_latest_observed_witness :
    (∀ s, (readerRun (fun _ => SessionYamlResult.absent) s
        [ProviderResult.frame ⟨1, 0, []⟩,
          ProviderResult.frame ⟨2, 0, []⟩]).1.currentFrame =
      latestOr (publishedPackets (readerRun (fun _ => SessionYamlResult.absent)
        s [ProviderResult.frame ⟨1, 0, []⟩,
          ProviderResult.frame ⟨2, 0, []⟩]).2) s.currentFrame) ∧
    ∀ p, ReaderEvent.framePublished p ∈
        (readerRun (fun _ => SessionYamlResult.absent) initialReaderState
          [ProviderResult.frame ⟨1, 0, []⟩,
            ProviderResult.frame ⟨2, 0, []⟩]).2 →
      ∀ c, (readerRun (fun _ => SessionYamlResult.absent) initialReaderState
          [ProviderResult.frame ⟨1, 0, []⟩,
            ProviderResult.frame ⟨2, 0, []⟩]).1.currentFrame = some c →
        p.tick ≤ c.tick :=
  syncstate_holds_latest_observed (fun _ => SessionYamlResult.absent)
    [ProviderResult.frame ⟨1, 0, []⟩, ProviderResult.frame ⟨2, 0, []⟩]
    (by decide)

theorem stop_not_mem_enrichment (v : Nat) (o : SessionYamlResult) :
    ReaderEvent.stoppedFatal ∉ (match o with
      | SessionYamlResult.text yaml => [ReaderEvent.parseTaskSpawned v yaml]
      | SessionYamlResult.absent => []
      | SessionYamlResult.fetchError _ => []) ∧
    ReaderEvent.stoppedGraceful ∉ (match o with
      | SessionYamlResult.text yaml => [ReaderEvent.parseTaskSpawned v yaml]
      | SessionYamlResult.absent => []
      | SessionYamlResult.fetchError _ => []) := by
  cases o <;> simp

theorem stoppedFatal_not_mem_changeEvents (v : Nat) (o : SessionYamlResult)
    (p : FramePacket) :
    ReaderEvent.stoppedFatal ∉ (ReaderEvent.sessionYamlRequested v ::
      ((match o with
        | .text yaml => [ReaderEvent.parseTaskSpawned v yaml]
        | .absent => []
        | .fetchError _ => []) ++ [ReaderEvent.framePublished p])) := by
  cases o <;> simp

theorem stoppedGraceful_not_mem_changeEvents (v : Nat)
    (o : SessionYamlResult) (p : FramePacket) :
    ReaderEvent.stoppedGraceful ∉ (ReaderEvent.sessionYamlRequested v ::
      ((match o with
        | .text yaml => [ReaderEvent.parseTaskSpawned v yaml]
        | .absent => []
        | .fetchError _ => []) ++ [ReaderEvent.framePublished p])) := by
  cases o <;> simp

theorem readerRun_fatal_iff_peak (yam : Nat → SessionYamlResult)
    (input : List ProviderResult) :
    ∀ s : ReaderState, ProviderResult.endOfStream ∉ input →
      s.errorCount < maxErrors →
      (ReaderEvent.stoppedFatal ∈ (readerRun yam s input).2 ↔
        maxErrors ≤ errorRunPeak s.errorCount input) := by
  induction input with
  | nil =>
    intro s _ hc
    simp only [maxErrors] at hc
    simp [readerRun, errorRunPeak, maxErrors]
    omega
  | cons r rest ih =>
    intro s heos hc
    simp only [maxErrors] at hc
    have heos2 : ProviderResult.endOfStream ∉ rest := fun h =>
      heos (List.mem_cons_of_mem r h)
    cases r with
    | endOfStream => simp at heos
    | frame p =>
      by_cases hv : s.lastSessionVersion = some p.sessionVersion
      · have hrec : ReaderEvent.stoppedFatal ∈
            (readerRun yam ⟨s.frameCount + 1, 0, s.lastSessionVersion,
              some p⟩ rest).2 ↔ 10 ≤ errorRunPeak 0 rest := by
          simpa [maxErrors] using
            ih ⟨s.frameCount + 1, 0, s.lastSessionVersion, some p⟩ heos2
              (by simp [maxErrors])
        rw [readerRun_cons, readerStep_frame_same yam s p hv]
        simp [errorRunPeak, hrec, maxErrors]
        omega
      · have hrec : ReaderEvent.stoppedFatal ∈
            (readerRun yam ⟨s.frameCount + 1, 0, some p.sessionVersion,
              some p⟩ rest).2 ↔ 10 ≤ errorRunPeak 0 rest := by
          simpa [maxErrors] using
            ih ⟨s.frameCount + 1, 0, some p.sessionVersion, some p⟩ heos2
              (by simp [maxErrors])
        rw [readerRun_cons, readerStep_frame_change yam s p hv]
        simp [errorRunPeak, hrec, maxErrors,
          (stop_not_mem_enrichment p.sessionVersion (yam p.sessionVersion)).1]
        omega
    | readError m =>
      by_cases hf : 10 ≤ s.errorCount + 1
      · rw [readerRun_cons,
          readerStep_readError_fatal yam s m (by simpa [maxErrors] using hf)]
        simp [errorRunPeak, maxErrors]
        have := le_max_left (s.errorCount + 1)
          (errorRunPeak (s.errorCount + 1) rest)
        omega
      · have hrec : ReaderEvent.stoppedFatal ∈
            (readerRun yam ⟨s.frameCount, s.errorCount + 1,
              s.lastSessionVersion, s.currentFrame⟩ rest).2 ↔
            10 ≤ errorRunPeak (s.errorCount + 1) rest := by
          simpa [maxErrors] using
            ih ⟨s.frameCount, s.errorCount + 1, s.lastSessionVersion,
              s.currentFrame⟩ heos2 (by simp [maxErrors]; omega)
        rw [readerRun_cons,
          readerStep_readError_backoff yam s m (by simp [maxErrors]; omega)]
        simp [errorRunPeak, hrec, maxErrors]
        omega

theorem le_errorRunPeak (l : List ProviderResult) :
    ∀ c, c ≤ errorRunPeak c l := by
  induction l with
  | nil =>
    intro c
    simp [errorRunPeak]
  | cons r rest ih =>
    intro c
    cases r with
    | frame p =>
      simp only [errorRunPeak]
      exact le_max_left c _
    | endOfStream =>
      simp [errorRunPeak]
    | readError m =>
      simp only [errorRunPeak]
      exact le_trans (by omega) (le_max_left (c + 1) _)

theorem errorRunPeak_mono (l : List ProviderResult) :
    ∀ c d, c ≤ d → errorRunPeak c l ≤ errorRunPeak d l := by
  induction l with
  | nil =>
    intro c d h
    simpa [errorRunPeak] using h
  | cons r rest ih =>
    intro c d h
    cases r with
    | frame p =>
      simp only [errorRunPeak]
      exact max_le_max h (le_refl _)
    | endOfStream =>
      simpa [errorRunPeak] using h
    | readError m =>
      simp only [errorRunPeak]
      exact max_le_max (by omega) (ih (c + 1) (d + 1) (by omega))

theorem errorRun_extends (win : List ProviderResult) :
    ∀ c rest, (∀ r ∈ win, ProviderResult.isReadError r = true) →
      c + win.length ≤ errorRunPeak c (win ++ rest) := by
  induction win with
  | nil =>
    intro c rest _
    simpa using le_errorRunPeak rest c
  | cons r win2 ih =>
    intro c rest herr
    have hr : ProviderResult.isReadError r = true :=
      herr r (List.mem_cons_self r win2)
    cases r with
    | frame p => simp [ProviderResult.isReadError] at hr
    | endOfStream => simp [ProviderResult.isReadError] at hr
    | readError m =>
      rw [List.cons_append]
      simp only [errorRunPeak]
      have hih := ih (c + 1) rest
        (fun x hx => herr x (List.mem_cons_of_mem _ hx))
      have hlen : c + (ProviderResult.readError m :: win2).length =
          (c + 1) + win2.length := by
        simp
        omega
      rw [hlen]
      exact le_trans hih (le_max_right _ _)

theorem errorRunPeak_append_ge (pre : List ProviderResult) :
    ∀ c l, ProviderResult.endOfStream ∉ pre →
      errorRunPeak 0 l ≤ errorRunPeak c (pre ++ l) := by
  induction pre with
  | nil =>
    intro c l _
    simpa using errorRunPeak_mono l 0 c (Nat.zero_le c)
  | cons r pre2 ih =>
    intro c l heos
    have heos2 : ProviderResult.endOfStream ∉ pre2 := fun h =>
      heos (List.mem_cons_of_mem r h)
    cases r with
    | endOfStream => simp at heos
    | frame p =>
      rw [List.cons_append]
      simp only [errorRunPeak]
      exact le_trans (ih 0 l heos2) (le_max_right _ _)
    | readError m =>
      rw [List.cons_append]
      simp only [errorRunPeak]
      exact le_trans (ih (c + 1) l heos2) (le_max_right _ _)

theorem tenConsecutive_cons (r : ProviderResult)
    (rest : List ProviderResult) (h : tenConsecutiveErrors rest) :
    tenConsecutiveErrors (r :: rest) := by
  obtain ⟨pre, win, post, heq, hlen, herr⟩ := h
  exact ⟨r :: pre, win, post, by simp [heq], hlen, herr⟩

theorem tenConsecutive_of_long_error_run (win post : List ProviderResult)
    (herr : ∀ r ∈ win, ProviderResult.isReadError r = true)
    (hlen : maxErrors ≤ win.length) :
    tenConsecutiveErrors (win ++ post) := by
  refine ⟨[], win.take maxErrors, win.drop maxErrors ++ post, ?_, ?_, ?_⟩
  · rw [List.nil_append, ← List.append_assoc, List.take_append_drop]
  · rw [List.length_take]
    omega
  · intro r hr
    exact herr r (List.take_subset maxErrors win hr)

theorem tenConsecutive_of_peak (input : List ProviderResult) :
    ∀ c, ProviderResult.endOfStream ∉ input → c < maxErrors →
      maxErrors ≤ errorRunPeak c input →
      tenConsecutiveErrors input ∨
        ∃ win post, input = win ++ post ∧
          (∀ r ∈ win, ProviderResult.isReadError r = true) ∧
          maxErrors ≤ win.length + c := by
  induction input with
  | nil =>
    intro c _ hc hpk
    simp only [maxErrors] at hc hpk
    simp [errorRunPeak] at hpk
    omega
  | cons r rest ih =>
    intro c heos hc hpk
    have heos2 : ProviderResult.endOfStream ∉ rest := fun h =>
      heos (List.mem_cons_of_mem r h)
    cases r with
    | endOfStream => simp at heos
    | frame p =>
      simp only [errorRunPeak] at hpk
      simp only [maxErrors] at hc hpk
      have hpk2 : maxErrors ≤ errorRunPeak 0 rest := by
        simp only [maxErrors]
        omega
      rcases ih 0 heos2 (by simp [maxErrors]) hpk2 with h1 |
        ⟨win, post, heq, herr, hlen⟩
      · exact Or.inl (tenConsecutive_cons _ rest h1)
      · left
        rw [heq]
        exact tenConsecutive_cons _ _
          (tenConsecutive_of_long_error_run win post herr
            (by simp [maxErrors] at hlen ⊢; omega))
    | readError m =>
      by_cases hf : maxErrors ≤ c + 1
      · right
        refine ⟨[ProviderResult.readError m], rest, rfl, ?_, ?_⟩
        · intro r hr
          have hr2 : r = ProviderResult.readError m := by simpa using hr
          rw [hr2]
          rfl
        · simp only [List.length_singleton]
          omega
      · simp only [errorRunPeak] at hpk
        simp only [maxErrors] at hc hf hpk
        have hpk2 : maxErrors ≤ errorRunPeak (c + 1) rest := by
          simp only [maxErrors]
          omega
        rcases ih (c + 1) heos2 (by simp [maxErrors]; omega) hpk2 with h1 |
          ⟨win, post, heq, herr, hlen⟩
        · exact Or.inl (tenConsecutive_cons _ rest h1)
        · right
          refine ⟨ProviderResult.readError m :: win, post,
            by rw [heq, List.cons_append], ?_, ?_⟩
          · intro x hx
            rcases List.mem_cons.mp hx with h2 | h2
            · rw [h2]; rfl
            · exact herr x h2
          · simp only [List.length_cons, maxErrors] at hlen ⊢
            omega

theorem tenConsecutive_iff_peak (input : List ProviderResult)
    (heos : ProviderResult.endOfStream ∉ input) :
    tenConsecutiveErrors input ↔ maxErrors ≤ errorRunPeak 0 input := by
  constructor
  · intro h
    obtain ⟨pre, win, post, heq, hlen, herr⟩ := h
    have heospre : ProviderResult.endOfStream ∉ pre := by
      intro hmem
      apply heos
      rw [heq]
      exact List.mem_append_left _ (List.mem_append_left _ hmem)
    have h1 : maxErrors ≤ errorRunPeak 0 (win ++ post) := by
      have h2 := errorRun_extends win 0 post herr
      rw [hlen] at h2
      simpa using h2
    have h3 := errorRunPeak_append_ge pre 0 (win ++ post) heospre
    rw [heq, List.append_assoc]
    exact le_trans h1 h3
  · intro hpk
    rcases tenConsecutive_of_peak input 0 heos (by simp [maxErrors]) hpk
      with h1 | ⟨win, post, heq, herr, hlen⟩
    · exact h1
    · rw [heq]
      exact tenConsecutive_of_long_error_run win post herr (by omega)

theorem readerRun_publishes_all (yam : Nat → SessionYamlResult)
    (input : List ProviderResult) :
    ∀ s : ReaderState, ProviderResult.endOfStream ∉ input →
      errorRunPeak s.errorCount input < maxErrors →
      publishedPackets (readerRun yam s input).2 =
        input.filterMap ProviderResult.packetOf ∧
      ReaderEvent.stoppedFatal ∉ (readerRun yam s input).2 ∧
      ReaderEvent.stoppedGraceful ∉ (readerRun yam s input).2 := by
  induction input with
  | nil =>
    intro s _ _
    simp [readerRun, publishedPackets]
  | cons r rest ih =>
    intro s heos hpk
    have heos2 : ProviderResult.endOfStream ∉ rest := fun h =>
      heos (List.mem_cons_of_mem r h)
    cases r with
    | endOfStream => simp at heos
    | frame p =>
      simp only [errorRunPeak] at hpk
      by_cases hv : s.lastSessionVersion = some p.sessionVersion
      · obtain ⟨h1, h2, h3⟩ :=
          ih ⟨s.frameCount + 1, 0, s.lastSessionVersion, some p⟩ heos2
            (by simp; omega)
        rw [readerRun_cons, readerStep_frame_same yam s p hv]
        simp only [if_true]
        refine ⟨?_, ?_, ?_⟩
        · rw [publishedPackets_append, publishedPackets_framePublished, h1]
          simp [List.filterMap_cons, ProviderResult.packetOf]
        · simp [List.mem_append, h2]
        · simp [List.mem_append, h3]
      · obtain ⟨h1, h2, h3⟩ :=
          ih ⟨s.frameCount + 1, 0, some p.sessionVersion, some p⟩ heos2
            (by simp; omega)
        rw [readerRun_cons, readerStep_frame_change yam s p hv]
        simp only [if_true]
        refine ⟨?_, ?_, ?_⟩
        · rw [publishedPackets_append, publishedPackets_changeEvents, h1]
          simp [List.filterMap_cons, ProviderResult.packetOf]
        · simp [List.mem_append, h2,
            (stop_not_mem_enrichment p.sessionVersion
              (yam p.sessionVersion)).1]
        · simp [List.mem_append, h3,
            (stop_not_mem_enrichment p.sessionVersion
              (yam p.sessionVersion)).2]
    | readError m =>
      simp only [errorRunPeak] at hpk
      have hf : s.errorCount + 1 < maxErrors := by
        have := le_max_left (s.errorCount + 1)
          (errorRunPeak (s.errorCount + 1) rest)
        omega
      obtain ⟨h1, h2, h3⟩ :=
        ih ⟨s.frameCount, s.errorCount + 1, s.lastSessionVersion,
          s.currentFrame⟩ heos2 (by simp; omega)
      rw [readerRun_cons, readerStep_readError_backoff yam s m hf]
      simp only [if_true]
      refine ⟨?_, ?_, ?_⟩
      · rw [publishedPackets_append, publishedPackets_backoff, h1]
        simp [List.filterMap_cons, ProviderResult.packetOf]
      · simp [List.mem_append, h2]
      · simp [List.mem_append, h3]

/-- C4 (amended): starting from a fresh reader state, the reader loop stops
fatally exactly when the provider result sequence contains ten consecutive
read errors; every successful frame resets the consecutive-error counter to
zero and keeps the loop running; and on any sequence without ten consecutive
errors the loop publishes every frame of the sequence, losing no ticks
beyond the failed reads and emitting no stop. The fatal stop drops the
reader task's sender clone, but - against the original claim's "closing
every subscriber's stream" - a subscriber observes closure only once the
Connection itself is dropped, the Connection still holding a sender. -/
theorem fatal_exactly_at_ten_consecutive_errors
    (yam : Nat → SessionYamlResult) (input : List ProviderResult)
    (heos : ProviderResult.endOfStream ∉ input) :
    (ReaderEvent.stoppedFatal ∈ (readerRun yam initialReaderState input).2 ↔
      tenConsecutiveErrors input) ∧
    (∀ (s : ReaderState) (p : FramePacket),
      (readerStep yam s (.frame p)).1.errorCount = 0 ∧
      (readerStep yam s (.frame p)).2.2 = true) ∧
    (¬ tenConsecutiveErrors input →
      publishedPackets (readerRun yam initialReaderState input).2 =
        input.filterMap ProviderResult.packetOf ∧
      ReaderEvent.stoppedFatal ∉ (readerRun yam initialReaderState input).2 ∧
      ReaderEvent.stoppedGraceful ∉
        (readerRun yam initialReaderState input).2) ∧
    receiverObservesClosed (holdersAfterReaderExit holdersAfterOpen) =
      false := by
  refine ⟨?_, ?_, ?_, by decide⟩
  · exact (readerRun_fatal_iff_peak yam input initialReaderState heos
      (by simp [initialReaderState, maxErrors])).trans
      (tenConsecutive_iff_peak input heos).symm
  · intro s p
    by_cases hv : s.lastSessionVersion = some p.sessionVersion
    · rw [readerStep_frame_same yam s p hv]
      exact ⟨rfl, rfl⟩
    · rw [readerStep_frame_change yam s p hv]
      exact ⟨rfl, rfl⟩
  · intro hnot
    have hpk : errorRunPeak 0 input < maxErrors := by
      by_contra hge
      exact hnot ((tenConsecutive_iff_peak input heos).mpr (by omega))
    exact readerRun_publishes_all yam input initialReaderState heos
      (by simpa [initialReaderState] using hpk)

/-- C4 witness: a frame, one read error, another frame - no fatal stop, both
frames published, the counter reset by each frame. -/
theorem fatal_exactly_at_ten_consecutive_errors_witness :
    (ReaderEvent.stoppedFatal ∈
        (readerRun (fun _ => SessionYamlResult.absent) initialReaderState
          [ProviderResult.frame ⟨1, 1, []⟩, ProviderResult.readError "io",
            ProviderResult.frame ⟨2, 1, []⟩]).2 ↔
      tenConsecutiveErrors
        [ProviderResult.frame ⟨1, 1, []⟩, ProviderResult.readError "io",
          ProviderResult.frame ⟨2, 1, []⟩]) ∧
    (∀ (s : ReaderState) (p : FramePacket),
      (readerStep (fun _ => SessionYamlResult.absent) s
        (.frame p)).1.errorCount = 0 ∧
      (readerStep (fun _ => SessionYamlResult.absent) s (.frame p)).2.2 =
        true) ∧
    (¬ tenConsecutiveErrors
        [ProviderResult.frame ⟨1, 1, []⟩, ProviderResult.readError "io",
          ProviderResult.frame ⟨2, 1, []⟩] →
      publishedPackets
          (readerRun (fun _ => SessionYamlResult.absent) initialReaderState
            [ProviderResult.frame ⟨1, 1, []⟩, ProviderResult.readError "io",
              ProviderResult.frame ⟨2, 1, []⟩]).2 =
        [ProviderResult.frame ⟨1, 1, []⟩, ProviderResult.readError "io",
          ProviderResult.frame ⟨2, 1, []⟩].filterMap
          ProviderResult.packetOf ∧
      ReaderEvent.stoppedFatal ∉
        (readerRun (fun _ => SessionYamlResult.absent) initialReaderState
          [ProviderResult.frame ⟨1, 1, []⟩, ProviderResult.readError "io",
            ProviderResult.frame ⟨2, 1, []⟩]).2 ∧
      ReaderEvent.stoppedGraceful ∉
        (readerRun (fun _ => SessionYamlResult.absent) initialReaderState
          [ProviderResult.frame ⟨1, 1, []⟩, ProviderResult.readError "io",
            ProviderResult.frame ⟨2, 1, []⟩]).2) ∧
    receiverObservesClosed (holdersAfterReaderExit holdersAfterOpen) =
      false :=
  fatal_exactly_at_ten_consecutive_errors (fun _ => SessionYamlResult.absent)
    [ProviderResult.frame ⟨1, 1, []⟩, ProviderResult.readError "io",
      ProviderResult.frame ⟨2, 1, []⟩]
    (by decide)

end Pitwall
